import Mathlib

/-! The JWT wrappers of `jwt/jwt.go`.

`jwt.go` exposes four operations, `Sign`, `SignRSA`, `Decode` and `Verify`. Each of them
prepares arguments, calls into the go-jose library and forwards the outcome. The library is
not part of the package, so its entry points are the fields of the structure `Jose` and every
statement below is about the wrappers, for an arbitrary behaviour of these entry points.

Go conventions used throughout:
* a function returning `(T, error)` is a function into `T × Option GoError`, the second
  component being `none` for a `nil` error;
* a result of type `interface{}` that may be `nil` is an `Option`;
* a `map[string]interface{}` is the list of its entries, in the order `range` visits them;
* a pointer is an `Option`, `none` being the nil pointer; a wrapper that dereferences a nil
  pointer panics, so the wrappers that dereference one of their arguments end in an
  `Outcome`: a returned value or a panic;
* the library calls are taken to return.
-/

namespace Jwt

/-! ## Values, maps and errors -/

/-- Values held in an `interface{}` that serialise to JSON: claims and header entries. -/
inductive Value where
  | null
  | bool (b : Bool)
  | num (n : Int)
  | str (s : String)
  | arr (xs : List Value)
  | obj (fields : List (String × Value))

/-- A Go `map[string]interface{}`: its entries in iteration order. -/
abbrev GoMap := List (String × Value)

/-- The keys of a Go map are pairwise distinct. -/
def WellFormed (m : GoMap) : Prop := (m.map Prod.fst).Nodup

instance (m : GoMap) : Decidable (WellFormed m) := by
  unfold WellFormed; infer_instance

/-- The map read `m[k]` (with presence flag): the value stored under `k`, if any. -/
def mapIndex : GoMap → String → Option Value
  | [], _ => none
  | (k', v') :: rest, k => if k' = k then some v' else mapIndex rest k

/-- The map assignment `m[k] = v`: replaces the entry of `k` or adds one. -/
def mapAssign : GoMap → String → Value → GoMap
  | [], k, v => [(k, v)]
  | (k', v') :: rest, k, v =>
    if k' = k then (k, v) :: rest else (k', v') :: mapAssign rest k v

/-- How a call of a wrapper ends: it returns a value, or it panics on a nil pointer. -/
inductive Outcome (α : Type) where
  | returned (value : α)
  | panicked
  deriving DecidableEq

/-- The value a call returned, if it returned. -/
def Outcome.result {α : Type} : Outcome α → Option α
  | .returned value => some value
  | .panicked => none

/-- Go `error` values, as far as this package builds or forwards them. -/
inductive GoError where
  /-- The value of `errors.New(text)`: a pointer to a fresh allocation, which `id` names. Two
  such values are equal exactly when they are the same allocation. -/
  | new (id : Nat) (text : String)
  /-- The value of `fmt.Errorf` for a format without `%w`; `text` is the formatted message. -/
  | errorf (text : String)
  /-- The value of `fmt.Errorf` for a format with `%w`: the message and the wrapped operand. -/
  | wrapf (text : String) (wrapped : GoError)
  /-- An error value produced inside go-jose. -/
  | jose (text : String)
  deriving DecidableEq, Repr

/-- The method `Error()`: the message of an error. -/
def GoError.Error : GoError → String
  | .new _ text => text
  | .errorf text => text
  | .wrapf text _ => text
  | .jose text => text

/-- The function `errors.Is(err, target)`: `target` is `err` or is reached by unwrapping.
Values of `errors.New` are compared by identity, through their `id`, so that a second
allocation with the same text is a different error. -/
def GoError.Is : GoError → GoError → Bool
  | .wrapf text wrapped, target =>
    decide (GoError.wrapf text wrapped = target) || GoError.Is wrapped target
  | err, target => decide (err = target)

/-- Line 40: `var ErrUnsupportedKey = errors.New("unsupported key")`, the one allocation of
`errors.New` in the package. -/
def ErrUnsupportedKey : GoError := GoError.new 0 "unsupported key"

/-! ## Types of go-jose that cross the interface -/

/-- The struct `jose.JSONWebKey`; `Key` is the key material (`nil` in the zero value). The
certificate fields, which this package never reads or writes, are left out. -/
structure JSONWebKey where
  Key : Option String
  KeyID : String
  Algorithm : String
  Use : String
  deriving DecidableEq, Repr

/-- The zero value `jose.JSONWebKey{}`. -/
def JSONWebKey.zero : JSONWebKey := ⟨none, "", "", ""⟩

/-- The struct `jose.JSONWebKeySet`. -/
structure JSONWebKeySet where
  Keys : List JSONWebKey
  deriving DecidableEq, Repr

/-- An `rsa.PrivateKey`, by its encoding. -/
structure RSAPrivateKey where
  material : String
  deriving DecidableEq, Repr

/-- What `Sign` and `SignRSA` store in the field `Key interface{}` of `jose.SigningKey`. -/
inductive SigningKeyValue where
  /-- A non-nil `*jose.JSONWebKey`. -/
  | jwk (key : JSONWebKey)
  /-- An `*rsa.PrivateKey`, nil or not. -/
  | rsa (key : Option RSAPrivateKey)
  deriving DecidableEq, Repr

/-- The struct `jose.SigningKey`. -/
structure SigningKey where
  Algorithm : String
  Key : SigningKeyValue
  deriving DecidableEq, Repr

/-- The struct `jose.SignerOptions`; `NonceSource` stays `nil` in this package and is left
out, a `nil` map of extra headers is the empty map. -/
structure SignerOptions where
  EmbedJWK : Bool
  ExtraHeaders : GoMap

/-- The zero value `jose.SignerOptions{}`. -/
def SignerOptions.zero : SignerOptions := ⟨false, []⟩

/-- Modelled from the spec: `SignerOptions.WithHeader` of go-jose is not in the sources. A
header field is merged into the options: the entry of `k` in the extra headers becomes `v`. -/
def SignerOptions.WithHeader (so : SignerOptions) (k : String) (v : Value) : SignerOptions :=
  ⟨so.EmbedJWK, mapAssign so.ExtraHeaders k v⟩

/-- Modelled from the spec: `SignerOptions.WithType` of go-jose is not in the sources. It
merges the header field `typ`. -/
def SignerOptions.WithType (so : SignerOptions) (typ : String) : SignerOptions :=
  so.WithHeader "typ" (Value.str typ)

/-- The entry points of go-jose that `jwt.go` calls. `Signer` stands for `jose.Signer`,
`Token` for `*jwt.JSONWebToken`.
* `NewSigner` is `jose.NewSigner`;
* `CompactSerialize sig c` is `jwt.Signed(sig).Claims(c).CompactSerialize()`;
* `ParseSigned` is `jwt.ParseSigned`;
* `UnsafeClaimsWithoutVerification t dest` is `t.UnsafeClaimsWithoutVerification(&dest)`:
  the content of `dest` after the call, and the error;
* `Claims t set dest` is `t.Claims(set, &dest)`, the call that verifies the signature. -/
structure Jose (Signer Token : Type) where
  NewSigner : SigningKey → SignerOptions → Signer × Option GoError
  CompactSerialize : Signer → Value → String × Option GoError
  ParseSigned : String → Token × Option GoError
  UnsafeClaimsWithoutVerification : Token → GoMap → GoMap × Option GoError
  Claims : Token → JSONWebKeySet → GoMap → GoMap × Option GoError

/-! ## The wrappers -/

section Wrappers

variable {Signer Token : Type}

/-- Lines 43-48 of `Sign`: the options handed to `jose.NewSigner`. -/
def Sign.signerOptions (header : GoMap) : SignerOptions :=
  header.foldl (fun opts kv => opts.WithHeader kv.1 kv.2) (SignerOptions.zero.WithType "JWT")

/-- Line 50 of `Sign`: the signing key handed to `jose.NewSigner`. -/
def Sign.signingKey (key : JSONWebKey) : SigningKey :=
  ⟨key.Algorithm, SigningKeyValue.jwk key⟩

/-- The method `Module.Sign`. Line 50 reads `key.Algorithm`, which panics on a nil `key`. -/
def Sign (J : Jose Signer Token) (key : Option JSONWebKey) (payload header : GoMap) :
    Outcome (String × Option GoError) :=
  match key with
  | none => Outcome.panicked
  | some key =>
    match J.NewSigner (Sign.signingKey key) (Sign.signerOptions header) with
    | (_, some err) => Outcome.returned ("", some err)
    | (sig, none) =>
      match J.CompactSerialize sig (Value.obj payload) with
      | (_, some err) => Outcome.returned ("", some err)
      | (str, none) => Outcome.returned (str, none)

/-- The method `Module.SignRSA`. The key is handed on without being dereferenced. -/
def SignRSA (J : Jose Signer Token) (key : Option RSAPrivateKey) (claim : Value) :
    String × Option GoError :=
  match J.NewSigner ⟨"RS256", SigningKeyValue.rsa key⟩ (SignerOptions.zero.WithType "JWT") with
  | (_, some err) => ("", some (GoError.errorf ("failed to create signer:" ++ err.Error)))
  | (joseSigner, none) =>
    match J.CompactSerialize joseSigner claim with
    | (_, some err) => ("", some (GoError.errorf ("failed to sign:" ++ err.Error)))
    | (token, none) => (token, none)

/-- The method `Module.Decode`. -/
def Decode (J : Jose Signer Token) (compact : String) : Option GoMap × Option GoError :=
  match J.ParseSigned compact with
  | (_, some err) => (none, some err)
  | (token, none) =>
    match J.UnsafeClaimsWithoutVerification token [] with
    | (_, some err) => (none, some err)
    | (payload, none) => (some payload, none)

/-- One element of the variadic `keys ...interface{}` of `Verify`, by dynamic type. A value
of any type other than the first three (the untyped `nil` included) is carried as its
renderings under `%T` and `%v`. -/
inductive KeyArg where
  /-- A `jose.JSONWebKey`. -/
  | jwk (key : JSONWebKey)
  /-- A `*jose.JSONWebKey`; `none` is the nil pointer of that type. -/
  | jwkPtr (key : Option JSONWebKey)
  /-- A `*jose.JSONWebKeySet`; `none` is the nil pointer of that type. -/
  | jwksPtr (set : Option JSONWebKeySet)
  /-- A value of another dynamic type. -/
  | other (dynType : String) (formatted : String)
  deriving DecidableEq, Repr

/-- The element is of one of the three types the type switch of `Verify` accepts. -/
def KeyArg.accepted : KeyArg → Bool
  | .other _ _ => false
  | _ => true

/-- The element is a nil pointer of type `*jose.JSONWebKey` or `*jose.JSONWebKeySet`. -/
def KeyArg.isNilPointer : KeyArg → Bool
  | .jwkPtr none => true
  | .jwksPtr none => true
  | _ => false

/-- Line 113: `fmt.Errorf("%w: %T %v", ErrUnsupportedKey, k, k)`. -/
def unsupportedKey (dynType formatted : String) : GoError :=
  GoError.wrapf (ErrUnsupportedKey.Error ++ ": " ++ dynType ++ " " ++ formatted)
    ErrUnsupportedKey

/-- Lines 104-115 of `Verify`: the loop over `keys`, started on the slice `set`. It yields
the slice after the loop, or the error of the `default` case, which leaves the loop and the
function at once; the dereference `*k.(*jose.JSONWebKey)` of line 109 and the field access
`k.(*jose.JSONWebKeySet).Keys` of line 111 panic on a nil pointer. -/
def Verify.collect :
    List JSONWebKey → List KeyArg → Outcome (List JSONWebKey × Option GoError)
  | set, [] => Outcome.returned (set, none)
  | set, KeyArg.jwk key :: rest => Verify.collect (set ++ [key]) rest
  | set, KeyArg.jwkPtr (some key) :: rest => Verify.collect (set ++ [key]) rest
  | _, KeyArg.jwkPtr none :: _ => Outcome.panicked
  | set, KeyArg.jwksPtr (some ks) :: rest => Verify.collect (set ++ ks.Keys) rest
  | _, KeyArg.jwksPtr none :: _ => Outcome.panicked
  | set, KeyArg.other dynType formatted :: _ =>
    Outcome.returned (set, some (unsupportedKey dynType formatted))

/-- Lines 102-115 of `Verify`: `set := make([]jose.JSONWebKey, len(keys))`, a slice of
`len(keys)` zero values, followed by the loop that appends to it. -/
def Verify.keySet (keys : List KeyArg) : Outcome (List JSONWebKey × Option GoError) :=
  Verify.collect (List.replicate keys.length JSONWebKey.zero) keys

/-- The method `Module.Verify`. -/
def Verify (J : Jose Signer Token) (compact : String) (keys : List KeyArg) :
    Outcome (Option GoMap × Option GoError) :=
  match J.ParseSigned compact with
  | (_, some err) => Outcome.returned (none, some err)
  | (token, none) =>
    match Verify.keySet keys with
    | Outcome.panicked => Outcome.panicked
    | Outcome.returned (_, some err) => Outcome.returned (none, some err)
    | Outcome.returned (set, none) =>
      match J.Claims token ⟨set⟩ [] with
      | (_, some err) => Outcome.returned (none, some err)
      | (payload, none) => Outcome.returned (some payload, none)

end Wrappers

/-- The keys that the accepted elements of an argument list stand for, in argument order:
a key or a pointer to a key gives that key, a key set gives its members in their order; a
nil pointer stands for no key. -/
def flattenKeys : List KeyArg → List JSONWebKey
  | [] => []
  | KeyArg.jwk key :: rest => key :: flattenKeys rest
  | KeyArg.jwkPtr (some key) :: rest => key :: flattenKeys rest
  | KeyArg.jwkPtr none :: rest => flattenKeys rest
  | KeyArg.jwksPtr (some ks) :: rest => ks.Keys ++ flattenKeys rest
  | KeyArg.jwksPtr none :: rest => flattenKeys rest
  | KeyArg.other _ _ :: rest => flattenKeys rest

/-- A signer constructor that refuses the empty algorithm name. -/
def rejecting.NewSigner (sk : SigningKey) (opts : SignerOptions) :
    (SigningKey × SignerOptions) × Option GoError :=
  ((sk, opts), if sk.Algorithm = "" then some (GoError.jose "unsupported algorithm") else none)

/-- A parser that refuses the empty string. -/
def rejecting.ParseSigned (s : String) : String × Option GoError :=
  (s, if s = "" then some (GoError.jose "compact JWS format must have three parts") else none)

/-- A payload reader that finds the claim `sub`. -/
def rejecting.UnsafeClaimsWithoutVerification (_ : String) (dest : GoMap) :
    GoMap × Option GoError :=
  (mapAssign dest "sub" (Value.str "alice"), none)

/-- A verification that rejects every token under every key set. -/
def rejecting.Claims (_ : String) (_ : JSONWebKeySet) (dest : GoMap) : GoMap × Option GoError :=
  (dest, some (GoError.jose "error in cryptographic primitive"))

/-- An instance of the library interface: it refuses the empty string as a token, reads the
claim `sub` without verification and rejects every signature. It serves to run the wrappers
on concrete inputs. -/
def rejecting : Jose (SigningKey × SignerOptions) String :=
  Jose.mk rejecting.NewSigner (fun _ _ => ("e30.e30.c2ln", none)) rejecting.ParseSigned
    rejecting.UnsafeClaimsWithoutVerification rejecting.Claims

/-- A signing key with a key identifier, used in the concrete evaluations below. -/
def sampleKey : JSONWebKey := ⟨some "c2VjcmV0", "k1", "HS256", "sig"⟩

/-- A second key, without key identifier. -/
def otherKey : JSONWebKey := ⟨some "b3RoZXI", "", "RS256", "sig"⟩

/-! ## The loop over the key arguments -/

theorem collect_accepted (keys : List KeyArg) :
    ∀ set : List JSONWebKey, (∀ k ∈ keys, k.accepted = true ∧ k.isNilPointer = false) →
      Verify.collect set keys = Outcome.returned (set ++ flattenKeys keys, none) := by
  induction keys with
  | nil => intro set _; simp [Verify.collect, flattenKeys]
  | cons k rest ih =>
    intro set h
    have hrest : ∀ k ∈ rest, k.accepted = true ∧ k.isNilPointer = false :=
      fun x hx => h x (List.mem_cons_of_mem _ hx)
    have hk := h k (List.mem_cons_self _ _)
    cases k with
    | jwk key => simp [Verify.collect, flattenKeys, ih _ hrest]
    | jwkPtr key =>
      cases key with
      | none => simp [KeyArg.isNilPointer] at hk
      | some key => simp [Verify.collect, flattenKeys, ih _ hrest]
    | jwksPtr ks =>
      cases ks with
      | none => simp [KeyArg.isNilPointer] at hk
      | some ks => simp [Verify.collect, flattenKeys, ih _ hrest]
    | other t v => simp [KeyArg.accepted] at hk

theorem collect_unsupported (pre post : List KeyArg) (dynType formatted : String) :
    ∀ set : List JSONWebKey, (∀ k ∈ pre, k.accepted = true ∧ k.isNilPointer = false) →
      Verify.collect set (pre ++ KeyArg.other dynType formatted :: post)
        = Outcome.returned (set ++ flattenKeys pre, some (unsupportedKey dynType formatted)) := by
  induction pre with
  | nil => intro set _; simp [Verify.collect, flattenKeys]
  | cons k rest ih =>
    intro set h
    have hrest : ∀ k ∈ rest, k.accepted = true ∧ k.isNilPointer = false :=
      fun x hx => h x (List.mem_cons_of_mem _ hx)
    have hk := h k (List.mem_cons_self _ _)
    cases k with
    | jwk key => simp [Verify.collect, flattenKeys, ih _ hrest]
    | jwkPtr key =>
      cases key with
      | none => simp [KeyArg.isNilPointer] at hk
      | some key => simp [Verify.collect, flattenKeys, ih _ hrest]
    | jwksPtr ks =>
      cases ks with
      | none => simp [KeyArg.isNilPointer] at hk
      | some ks => simp [Verify.collect, flattenKeys, ih _ hrest]
    | other t v => simp [KeyArg.accepted] at hk

/-- The loop panics at the first nil pointer when only accepted, non-nil elements go before
it. -/
theorem collect_nil_pointer (pre post : List KeyArg) (k : KeyArg)
    (hk : k.isNilPointer = true) :
    ∀ set : List JSONWebKey, (∀ x ∈ pre, x.accepted = true ∧ x.isNilPointer = false) →
      Verify.collect set (pre ++ k :: post) = Outcome.panicked := by
  induction pre with
  | nil =>
    intro set _
    cases k with
    | jwk key => simp [KeyArg.isNilPointer] at hk
    | jwkPtr key =>
      cases key with
      | none => simp [Verify.collect]
      | some key => simp [KeyArg.isNilPointer] at hk
    | jwksPtr ks =>
      cases ks with
      | none => simp [Verify.collect]
      | some ks => simp [KeyArg.isNilPointer] at hk
    | other t v => simp [KeyArg.isNilPointer] at hk
  | cons x rest ih =>
    intro set h
    have hrest : ∀ y ∈ rest, y.accepted = true ∧ y.isNilPointer = false :=
      fun y hy => h y (List.mem_cons_of_mem _ hy)
    have hx := h x (List.mem_cons_self _ _)
    cases x with
    | jwk key => simp [Verify.collect, ih _ hrest]
    | jwkPtr key =>
      cases key with
      | none => simp [KeyArg.isNilPointer] at hx
      | some key => simp [Verify.collect, ih _ hrest]
    | jwksPtr ks =>
      cases ks with
      | none => simp [KeyArg.isNilPointer] at hx
      | some ks => simp [Verify.collect, ih _ hrest]
    | other t v => simp [KeyArg.accepted] at hx

/-- The slice that the loop of `Verify` leaves behind on accepted, non-nil arguments:
`len(keys)` zero values, then the keys of the arguments. -/
theorem keySet_accepted (keys : List KeyArg)
    (h : ∀ k ∈ keys, k.accepted = true ∧ k.isNilPointer = false) :
    Verify.keySet keys
      = Outcome.returned
          (List.replicate keys.length JSONWebKey.zero ++ flattenKeys keys, none) := by
  unfold Verify.keySet
  exact collect_accepted keys _ h

/-- A parse error leaves `Decode` and `Verify` at once, before any key is looked at. -/
theorem parse_error_forwarded {Signer Token : Type} (J : Jose Signer Token) (compact : String)
    (err : GoError) (h : (J.ParseSigned compact).2 = some err) (keys : List KeyArg) :
    Decode J compact = (none, some err)
      ∧ Verify J compact keys = Outcome.returned (none, some err) := by
  rcases hp : J.ParseSigned compact with ⟨token, e⟩
  rw [hp] at h
  simp only at h
  subst h
  simp [Decode, Verify, hp]

/-- On accepted, non-nil arguments `Verify` forwards the outcome of the verifying call
`Claims`, made on the slice of `keySet_accepted`. -/
theorem Verify_accepted {Signer Token : Type} (J : Jose Signer Token) (compact : String)
    (token : Token) (keys : List KeyArg) (hparse : J.ParseSigned compact = (token, none))
    (h : ∀ k ∈ keys, k.accepted = true ∧ k.isNilPointer = false) :
    Verify J compact keys =
      match J.Claims token
          ⟨List.replicate keys.length JSONWebKey.zero ++ flattenKeys keys⟩ [] with
      | (_, some err) => Outcome.returned (none, some err)
      | (payload, none) => Outcome.returned (some payload, none) := by
  simp [Verify, hparse, keySet_accepted keys h]

/-- With a parsed token, `Verify` panics when a nil pointer is met before any unsupported
element. -/
theorem Verify_nil_pointer {Signer Token : Type} (J : Jose Signer Token) (compact : String)
    (pre post : List KeyArg) (k : KeyArg) (hparse : (J.ParseSigned compact).2 = none)
    (hk : k.isNilPointer = true)
    (hpre : ∀ x ∈ pre, x.accepted = true ∧ x.isNilPointer = false) :
    Verify J compact (pre ++ k :: post) = Outcome.panicked := by
  rcases hp : J.ParseSigned compact with ⟨token, e⟩
  rw [hp] at hparse
  simp only at hparse
  subst hparse
  simp [Verify, Verify.keySet, hp, collect_nil_pointer pre post k hk _ hpre]

/-- The verifying call has no part in `Decode`: replacing it leaves the result unchanged. -/
theorem Decode_ignores_Claims {Signer Token : Type} (J : Jose Signer Token) (compact : String)
    (claims' : Token → JSONWebKeySet → GoMap → GoMap × Option GoError) :
    Decode (Jose.mk J.NewSigner J.CompactSerialize J.ParseSigned
      J.UnsafeClaimsWithoutVerification claims') compact = Decode J compact := rfl

/-! ## Statements about `Verify` and its arguments -/

/-- C2, as the code has it: when the token parses, the argument list holds an element of a
type other than `jose.JSONWebKey`, `*jose.JSONWebKey` and `*jose.JSONWebKeySet`, and no nil
pointer comes before the first such element, `Verify` returns a nil payload and the error of
that element: it wraps `ErrUnsupportedKey` and its message names the dynamic type and the
value of the element. The elements after it, nil pointers included, and the verifying call
`Claims` have no influence on the result. -/
theorem Verify_unsupported_key {Signer Token : Type} (J : Jose Signer Token)
    (compact : String) (pre post : List KeyArg) (dynType formatted : String)
    (hparse : (J.ParseSigned compact).2 = none)
    (hpre : ∀ k ∈ pre, k.accepted = true ∧ k.isNilPointer = false) :
    Verify J compact (pre ++ KeyArg.other dynType formatted :: post)
        = Outcome.returned (none, some (unsupportedKey dynType formatted))
      ∧ (unsupportedKey dynType formatted).Is ErrUnsupportedKey = true
      ∧ (unsupportedKey dynType formatted).Error
          = "unsupported key: " ++ dynType ++ " " ++ formatted
      ∧ ∀ (J' : Jose Signer Token) (post' : List KeyArg),
          J'.ParseSigned compact = J.ParseSigned compact →
          Verify J' compact (pre ++ KeyArg.other dynType formatted :: post')
            = Verify J compact (pre ++ KeyArg.other dynType formatted :: post) := by
  have key : ∀ (L : Jose Signer Token) (ps : List KeyArg),
      L.ParseSigned compact = J.ParseSigned compact →
      Verify L compact (pre ++ KeyArg.other dynType formatted :: ps)
        = Outcome.returned (none, some (unsupportedKey dynType formatted)) := by
    intro L ps hL
    rcases hp : J.ParseSigned compact with ⟨token, e⟩
    rw [hp] at hparse hL
    simp only at hparse
    subst hparse
    simp [Verify, Verify.keySet, hL, collect_unsupported pre ps dynType formatted _ hpre]
  refine ⟨key J post rfl, ?_, ?_, ?_⟩
  · simp [unsupportedKey, GoError.Is, ErrUnsupportedKey]
  · simp [unsupportedKey, GoError.Error, ErrUnsupportedKey]
  · intro J' post' hJ'
    rw [key J' post' hJ', key J post rfl]

/-- C2, at a concrete input: a string after a key and a pointer to a key, and before a nil
pointer. -/
theorem Verify_unsupported_key_witness :
    (rejecting.ParseSigned "a.b.c").2 = none
      ∧ Verify rejecting "a.b.c"
          [KeyArg.jwk sampleKey, KeyArg.jwkPtr (some otherKey),
            KeyArg.other "string" "not-a-key", KeyArg.jwkPtr none]
        = Outcome.returned
            (none, some (GoError.wrapf "unsupported key: string not-a-key" ErrUnsupportedKey)) :=
  ⟨rfl, (Verify_unsupported_key rejecting "a.b.c"
    [KeyArg.jwk sampleKey, KeyArg.jwkPtr (some otherKey)] [KeyArg.jwkPtr none]
    "string" "not-a-key" rfl (by simp [KeyArg.accepted, KeyArg.isNilPointer])).1⟩

/-- C2 fails as stated: on the arguments `(*jose.JSONWebKey)(nil), "not-a-key"` the loop
panics at the nil pointer, so `Verify` returns nothing, not the error of the string. -/
theorem Verify_nil_pointer_before_unsupported :
    Verify.keySet [KeyArg.jwkPtr none, KeyArg.other "string" "not-a-key"] = Outcome.panicked
      ∧ (rejecting.ParseSigned "a.b.c").2 = none
      ∧ Verify rejecting "a.b.c" [KeyArg.jwkPtr none, KeyArg.other "string" "not-a-key"]
          = Outcome.panicked
      ∧ Verify rejecting "a.b.c" [KeyArg.jwkPtr none, KeyArg.other "string" "not-a-key"]
          ≠ Outcome.returned (none, some (unsupportedKey "string" "not-a-key")) := by
  have h : Verify rejecting "a.b.c" [KeyArg.jwkPtr none, KeyArg.other "string" "not-a-key"]
      = Outcome.panicked := rfl
  refine ⟨rfl, rfl, h, ?_⟩
  rw [h]
  simp

/-- C9: on the single argument `&sampleKey` the slice handed to the verifying call holds two
keys, a zero-valued `jose.JSONWebKey` and then the key, whereas the argument flattens to the
key alone. -/
theorem Verify_keySet_single :
    Verify.keySet [KeyArg.jwkPtr (some sampleKey)]
        = Outcome.returned ([JSONWebKey.zero, sampleKey], none)
      ∧ flattenKeys [KeyArg.jwkPtr (some sampleKey)] = [sampleKey]
      ∧ (Verify.keySet [KeyArg.jwkPtr (some sampleKey)]).result.map (fun r => r.1.length)
        = some 2
      ∧ (Verify.keySet [KeyArg.jwkPtr (some sampleKey)]).result.map (fun r => r.1)
        ≠ some (flattenKeys [KeyArg.jwkPtr (some sampleKey)]) := by
  refine ⟨rfl, rfl, rfl, ?_⟩
  decide

/-! ## Results are all-or-nothing -/

/-- C10: each operation returns an error together with the empty result (the empty string
for `Sign` and `SignRSA`, a nil payload for `Decode` and `Verify`) exactly when one of its
steps failed, whatever value the failed library call returned next to its error; and it
returns a nil error together with the complete result of its last library call exactly when
every step succeeded. No other return exists: what remains are the panics of `Sign` on a nil
key and of `Verify` on a nil pointer, which return nothing. -/
theorem all_or_nothing {Signer Token : Type} (J : Jose Signer Token)
    (key : Option JSONWebKey) (payload header : GoMap) (rsaKey : Option RSAPrivateKey)
    (claim : Value) (compact : String) (keys : List KeyArg) :
    ((key = none ∧ Sign J key payload header = Outcome.panicked)
      ∨ (∃ k err, key = some k
          ∧ (J.NewSigner (Sign.signingKey k) (Sign.signerOptions header)).2 = some err
          ∧ Sign J key payload header = Outcome.returned ("", some err))
      ∨ (∃ k err, key = some k
          ∧ (J.NewSigner (Sign.signingKey k) (Sign.signerOptions header)).2 = none
          ∧ (J.CompactSerialize
              (J.NewSigner (Sign.signingKey k) (Sign.signerOptions header)).1
              (Value.obj payload)).2 = some err
          ∧ Sign J key payload header = Outcome.returned ("", some err))
      ∨ (∃ k, key = some k
          ∧ (J.NewSigner (Sign.signingKey k) (Sign.signerOptions header)).2 = none
          ∧ (J.CompactSerialize
              (J.NewSigner (Sign.signingKey k) (Sign.signerOptions header)).1
              (Value.obj payload)).2 = none
          ∧ Sign J key payload header = Outcome.returned
              ((J.CompactSerialize
                (J.NewSigner (Sign.signingKey k) (Sign.signerOptions header)).1
                (Value.obj payload)).1, none)))
    ∧ ((∃ err,
          (J.NewSigner ⟨"RS256", SigningKeyValue.rsa rsaKey⟩
            (SignerOptions.zero.WithType "JWT")).2 = some err
          ∧ SignRSA J rsaKey claim
            = ("", some (GoError.errorf ("failed to create signer:" ++ err.Error))))
      ∨ (∃ err,
          (J.NewSigner ⟨"RS256", SigningKeyValue.rsa rsaKey⟩
            (SignerOptions.zero.WithType "JWT")).2 = none
          ∧ (J.CompactSerialize
              (J.NewSigner ⟨"RS256", SigningKeyValue.rsa rsaKey⟩
                (SignerOptions.zero.WithType "JWT")).1 claim).2 = some err
          ∧ SignRSA J rsaKey claim
            = ("", some (GoError.errorf ("failed to sign:" ++ err.Error))))
      ∨ ((J.NewSigner ⟨"RS256", SigningKeyValue.rsa rsaKey⟩
            (SignerOptions.zero.WithType "JWT")).2 = none
          ∧ (J.CompactSerialize
              (J.NewSigner ⟨"RS256", SigningKeyValue.rsa rsaKey⟩
                (SignerOptions.zero.WithType "JWT")).1 claim).2 = none
          ∧ SignRSA J rsaKey claim
            = ((J.CompactSerialize
                (J.NewSigner ⟨"RS256", SigningKeyValue.rsa rsaKey⟩
                  (SignerOptions.zero.WithType "JWT")).1 claim).1, none)))
    ∧ ((∃ err, (J.ParseSigned compact).2 = some err ∧ Decode J compact = (none, some err))
      ∨ (∃ err, (J.ParseSigned compact).2 = none
          ∧ (J.UnsafeClaimsWithoutVerification (J.ParseSigned compact).1 []).2 = some err
          ∧ Decode J compact = (none, some err))
      ∨ ((J.ParseSigned compact).2 = none
          ∧ (J.UnsafeClaimsWithoutVerification (J.ParseSigned compact).1 []).2 = none
          ∧ Decode J compact
            = (some (J.UnsafeClaimsWithoutVerification (J.ParseSigned compact).1 []).1, none)))
    ∧ ((∃ err, (J.ParseSigned compact).2 = some err
          ∧ Verify J compact keys = Outcome.returned (none, some err))
      ∨ ((J.ParseSigned compact).2 = none ∧ Verify.keySet keys = Outcome.panicked
          ∧ Verify J compact keys = Outcome.panicked)
      ∨ (∃ set err, (J.ParseSigned compact).2 = none
          ∧ Verify.keySet keys = Outcome.returned (set, some err)
          ∧ Verify J compact keys = Outcome.returned (none, some err))
      ∨ (∃ set err, (J.ParseSigned compact).2 = none
          ∧ Verify.keySet keys = Outcome.returned (set, none)
          ∧ (J.Claims (J.ParseSigned compact).1 ⟨set⟩ []).2 = some err
          ∧ Verify J compact keys = Outcome.returned (none, some err))
      ∨ (∃ set, (J.ParseSigned compact).2 = none
          ∧ Verify.keySet keys = Outcome.returned (set, none)
          ∧ (J.Claims (J.ParseSigned compact).1 ⟨set⟩ []).2 = none
          ∧ Verify J compact keys
            = Outcome.returned (some (J.Claims (J.ParseSigned compact).1 ⟨set⟩ []).1, none))) := by
  refine ⟨?_, ?_, ?_, ?_⟩
  · cases key with
    | none => exact Or.inl ⟨rfl, rfl⟩
    | some k =>
      rcases h1 : J.NewSigner (Sign.signingKey k) (Sign.signerOptions header) with ⟨sig, _ | e⟩
      · rcases h2 : J.CompactSerialize sig (Value.obj payload) with ⟨str, _ | e⟩
        · exact Or.inr (Or.inr (Or.inr ⟨k, rfl, by simp [h1], by simp [h1, h2],
            by simp [Sign, h1, h2]⟩))
        · exact Or.inr (Or.inr (Or.inl ⟨k, e, rfl, by simp [h1], by simp [h1, h2],
            by simp [Sign, h1, h2]⟩))
      · exact Or.inr (Or.inl ⟨k, e, rfl, by simp [h1], by simp [Sign, h1]⟩)
  · rcases h1 : J.NewSigner ⟨"RS256", SigningKeyValue.rsa rsaKey⟩
        (SignerOptions.zero.WithType "JWT") with ⟨sig, _ | e⟩
    · rcases h2 : J.CompactSerialize sig claim with ⟨str, _ | e⟩
      · exact Or.inr (Or.inr ⟨by simp [h1], by simp [h1, h2], by simp [SignRSA, h1, h2]⟩)
      · exact Or.inr (Or.inl ⟨e, by simp [h1], by simp [h1, h2], by simp [SignRSA, h1, h2]⟩)
    · exact Or.inl ⟨e, by simp [h1], by simp [SignRSA, h1]⟩
  · rcases h1 : J.ParseSigned compact with ⟨token, _ | e⟩
    · rcases h2 : J.UnsafeClaimsWithoutVerification token [] with ⟨p, _ | e⟩
      · exact Or.inr (Or.inr ⟨by simp [h1], by simp [h1, h2], by simp [Decode, h1, h2]⟩)
      · exact Or.inr (Or.inl ⟨e, by simp [h1], by simp [h1, h2], by simp [Decode, h1, h2]⟩)
    · exact Or.inl ⟨e, by simp [h1], by simp [Decode, h1]⟩
  · rcases h1 : J.ParseSigned compact with ⟨token, _ | e⟩
    · rcases h2 : Verify.keySet keys with ⟨set, _ | e⟩ | _
      · rcases h3 : J.Claims token ⟨set⟩ [] with ⟨p, _ | e⟩
        · exact Or.inr (Or.inr (Or.inr (Or.inr ⟨set, by simp [h1], rfl, by simp [h1, h3],
            by simp [Verify, h1, h2, h3]⟩)))
        · exact Or.inr (Or.inr (Or.inr (Or.inl ⟨set, e, by simp [h1], rfl, by simp [h1, h3],
            by simp [Verify, h1, h2, h3]⟩)))
      · exact Or.inr (Or.inr (Or.inl ⟨set, e, by simp [h1], rfl, by simp [Verify, h1, h2]⟩))
      · exact Or.inr (Or.inl ⟨by simp [h1], rfl, by simp [Verify, h1, h2]⟩)
    · exact Or.inl ⟨e, by simp [h1], by simp [Verify, h1]⟩

/-! ## The headers and the algorithm that `Sign` hands to the signer -/

theorem mapIndex_mapAssign (m : GoMap) (k : String) (v : Value) (q : String) :
    mapIndex (mapAssign m k v) q = if k = q then some v else mapIndex m q := by
  induction m with
  | nil => simp [mapAssign, mapIndex]
  | cons e rest ih =>
    obtain ⟨k', v'⟩ := e
    by_cases hk : k' = k
    · subst hk
      by_cases hq : k' = q <;> simp [mapAssign, mapIndex, hq]
    · by_cases hq : k' = q
      · subst hq
        have hne : ¬ k = k' := fun h => hk h.symm
        simp [mapAssign, mapIndex, hk, hne]
      · simp [mapAssign, mapIndex, hk, hq, ih]

theorem mapIndex_absent (m : GoMap) (q : String) (h : q ∉ m.map Prod.fst) :
    mapIndex m q = none := by
  induction m with
  | nil => rfl
  | cons e rest ih =>
    obtain ⟨k', v'⟩ := e
    simp only [List.map_cons, List.mem_cons, not_or] at h
    have hne : ¬ k' = q := fun hk => h.1 hk.symm
    simp [mapIndex, hne, ih h.2]

/-- A key that the caller's map does not hold keeps the entry it had before the loop of
lines 46-48. -/
theorem merge_absent (header : GoMap) (q : String) :
    ∀ opts : SignerOptions, mapIndex header q = none →
      mapIndex (header.foldl (fun opts kv => opts.WithHeader kv.1 kv.2) opts).ExtraHeaders q
        = mapIndex opts.ExtraHeaders q := by
  induction header with
  | nil => intro opts _; rfl
  | cons e rest ih =>
    obtain ⟨k', v'⟩ := e
    intro opts h
    by_cases hk : k' = q
    · simp [mapIndex, hk] at h
    · simp only [mapIndex, hk, if_false] at h
      simp only [List.foldl_cons]
      rw [ih _ h]
      simp [SignerOptions.WithHeader, mapIndex_mapAssign, hk]

/-- A key that the caller's map holds ends with the caller's value after the loop of lines
46-48. -/
theorem merge_present (header : GoMap) (q : String) (v : Value) :
    ∀ opts : SignerOptions, WellFormed header → mapIndex header q = some v →
      mapIndex (header.foldl (fun opts kv => opts.WithHeader kv.1 kv.2) opts).ExtraHeaders q
        = some v := by
  induction header with
  | nil => intro opts _ h; simp [mapIndex] at h
  | cons e rest ih =>
    obtain ⟨k', v'⟩ := e
    intro opts hwf h
    have hwf' : (k' ∉ rest.map Prod.fst) ∧ WellFormed rest := by
      simpa [WellFormed] using hwf
    simp only [List.foldl_cons]
    by_cases hk : k' = q
    · subst hk
      simp only [mapIndex, if_true, Option.some.injEq] at h
      subst h
      rw [merge_absent rest k' _ (mapIndex_absent rest k' hwf'.1)]
      simp [SignerOptions.WithHeader, mapIndex_mapAssign]
    · simp only [mapIndex, hk, if_false] at h
      exact ih _ hwf'.2 h

/-- C6, as the code has it: every entry of the caller's header map reaches the headers handed
to the signer with its own key and value, an entry `typ` included; the header `typ` is "JWT"
when the caller's map has no entry `typ`; and no header other than `typ` and the caller's
entries is handed over. -/
theorem Sign_headers_merged (header : GoMap) (hwf : WellFormed header) :
    (∀ q v, mapIndex header q = some v →
        mapIndex (Sign.signerOptions header).ExtraHeaders q = some v)
      ∧ (mapIndex header "typ" = none →
        mapIndex (Sign.signerOptions header).ExtraHeaders "typ" = some (Value.str "JWT"))
      ∧ (∀ q, q ≠ "typ" → mapIndex header q = none →
        mapIndex (Sign.signerOptions header).ExtraHeaders q = none) := by
  refine ⟨?_, ?_, ?_⟩
  · intro q v h
    exact merge_present header q v _ hwf h
  · intro h
    unfold Sign.signerOptions
    rw [merge_absent header "typ" _ h]
    rfl
  · intro q hq h
    unfold Sign.signerOptions
    rw [merge_absent header q _ h]
    have hne : ¬ "typ" = q := fun e => hq e.symm
    simp [SignerOptions.WithType, SignerOptions.WithHeader, SignerOptions.zero,
      mapIndex_mapAssign, hne, mapIndex]

/-- C6, at a concrete input: a header map with a key identifier and no `typ`. -/
theorem Sign_headers_merged_witness :
    WellFormed [("kid", Value.str "k1")]
      ∧ mapIndex (Sign.signerOptions [("kid", Value.str "k1")]).ExtraHeaders "kid"
          = some (Value.str "k1")
      ∧ mapIndex (Sign.signerOptions [("kid", Value.str "k1")]).ExtraHeaders "typ"
          = some (Value.str "JWT") :=
  have hwf : WellFormed [("kid", Value.str "k1")] := by simp [WellFormed]
  have h := Sign_headers_merged [("kid", Value.str "k1")] hwf
  ⟨hwf, h.1 "kid" (Value.str "k1") rfl, h.2.1 rfl⟩

/-- C6 fails as stated: for the header map with the single entry `typ: "at+jwt"`, the `typ`
header that `Sign` hands to the signer is "at+jwt" and not "JWT". -/
theorem Sign_typ_from_caller :
    mapIndex (Sign.signerOptions [("typ", Value.str "at+jwt")]).ExtraHeaders "typ"
        = some (Value.str "at+jwt")
      ∧ mapIndex (Sign.signerOptions [("typ", Value.str "at+jwt")]).ExtraHeaders "typ"
        ≠ some (Value.str "JWT") := by
  have h : mapIndex (Sign.signerOptions [("typ", Value.str "at+jwt")]).ExtraHeaders "typ"
      = some (Value.str "at+jwt") := rfl
  refine ⟨h, ?_⟩
  rw [h]
  simp

/-- C5, as the code has it: the signing key handed to `jose.NewSigner` carries the algorithm
declared by the key and the key itself, whatever the header map holds; an entry `alg` of the
header map is not dropped but handed to the signer, with the caller's value, among the extra
headers, and without such an entry no header `alg` is handed over. -/
theorem Sign_algorithm_from_key (key : JSONWebKey) (header : GoMap) (hwf : WellFormed header) :
    (Sign.signingKey key).Algorithm = key.Algorithm
      ∧ (Sign.signingKey key).Key = SigningKeyValue.jwk key
      ∧ (∀ v, mapIndex header "alg" = some v →
        mapIndex (Sign.signerOptions header).ExtraHeaders "alg" = some v)
      ∧ (mapIndex header "alg" = none →
        mapIndex (Sign.signerOptions header).ExtraHeaders "alg" = none) := by
  refine ⟨rfl, rfl, ?_, ?_⟩
  · intro v h
    exact merge_present header "alg" v _ hwf h
  · intro h
    unfold Sign.signerOptions
    rw [merge_absent header "alg" _ h]
    rfl

/-- C5, at a concrete input: an HS256 key and a header map without `alg`. -/
theorem Sign_algorithm_from_key_witness :
    WellFormed [("kid", Value.str "k1")]
      ∧ (Sign.signingKey sampleKey).Algorithm = "HS256"
      ∧ mapIndex (Sign.signerOptions [("kid", Value.str "k1")]).ExtraHeaders "alg" = none :=
  have hwf : WellFormed [("kid", Value.str "k1")] := by simp [WellFormed]
  have h := Sign_algorithm_from_key sampleKey [("kid", Value.str "k1")] hwf
  ⟨hwf, h.1, h.2.2.2 rfl⟩

/-- C5 fails as stated: for an HS256 key and the header map with the single entry
`alg: "none"`, the signer is asked for HS256 and receives the header `alg: "none"` from the
caller. -/
theorem Sign_alg_entry_forwarded :
    (Sign.signingKey sampleKey).Algorithm = "HS256"
      ∧ mapIndex (Sign.signerOptions [("alg", Value.str "none")]).ExtraHeaders "alg"
        = some (Value.str "none")
      ∧ mapIndex (Sign.signerOptions [("alg", Value.str "none")]).ExtraHeaders "alg"
        ≠ some (Value.str (Sign.signingKey sampleKey).Algorithm) := by
  have h : mapIndex (Sign.signerOptions [("alg", Value.str "none")]).ExtraHeaders "alg"
      = some (Value.str "none") := rfl
  refine ⟨rfl, h, ?_⟩
  rw [h]
  simp [Sign.signingKey, sampleKey]

end Jwt
